import Mathlib

/-!
Verification of the inference request pipeline of `yolo_api.py`
(single-image object detection over HTTP).

The embedding mirrors the source:
* `RawDet` models one entry of the detector output `RawDetections`:
  a `(class_id, confidence)` pair.  Confidences are modelled as
  rationals; the source only ever compares them, never computes with
  them, so the ordering behaviour is faithful.
* `Catalog` models the `CLASS_NAMES` dict (`model.names`).
* `resolveLabel` models `CLASS_NAMES.get(int(c), f"class_{int(c)}")`.
* `sortDesc` models `sorted(zip(cls, conf), key=lambda x: x[1], reverse=True)`:
  Python's sort is stable, and `reverse=True` keeps equal elements in
  their original order, which is exactly what the insertion rule
  `y.2 ≤ x.2` implements (the element being inserted comes from earlier
  in the input than everything already in the sorted suffix).
* `bumpCount` models `counts[label] = counts.get(label, 0) + 1` on a
  Python dict: update in place when the key exists, append in
  first-seen order when it does not.
* `pySummarize` models lines 348-359 of `detect`: the guard
  `r.boxes is not None and len(r.boxes) > 0`, the sort, and the loop
  appending to `objects` and incrementing `counts`.
* `detect` models the request handler `detect()`: the `model is None`
  check, the missing-field check, the `not f.filename` check, then the
  temp-file / inference block.  The `try:` block of the source has no
  `except` or `finally` clause, so an exception raised by the model
  call propagates out of the handler (`DetectOutcome.unhandled`) and
  `os.unlink(tmp.name)` is skipped; the temp file was created with
  `delete=False`, so it stays on disk (`tempLeft = true`).  On the
  success path the file is unlinked (`tempLeft = false`).  The
  `payload` bytes are carried but never inspected by the handler's
  control flow, exactly as in the source, which never checks the
  uploaded content before handing the temp file to the model.
-/

/-- One raw detection: `(class_id, confidence)`. -/
abbrev RawDet : Type := Nat × ℚ

/-- The class-id → label mapping `CLASS_NAMES` (a Python dict). -/
abbrev Catalog : Type := List (Nat × String)

/-- The `counts` dict: labels with occurrence counts, in insertion order. -/
abbrev Counts : Type := List (String × Nat)

/-- One entry of the response `objects` list: `{"label": ..., "confidence": ...}`. -/
structure DetObj where
  label : String
  confidence : ℚ
deriving DecidableEq, Repr

/-- The success payload `{"objects": ..., "counts": ...}`. -/
structure DetectionResult where
  objects : List DetObj
  counts : Counts
deriving DecidableEq, Repr

/-- A JSON response body: either the success payload or `{"error": msg}`. -/
inductive Body where
  | payload (r : DetectionResult)
  | err (msg : String)
deriving DecidableEq, Repr

/-- Outcome of one `detect()` call.  `tempLeft` records whether the scoped
temporary file is still on disk when the handler exits.  `unhandled` is an
exception escaping the handler (the source's `try:` has no `except`). -/
inductive DetectOutcome where
  | response (status : Nat) (body : Body) (tempLeft : Bool)
  | unhandled (exn : String) (tempLeft : Bool)
deriving DecidableEq, Repr

/-- `CLASS_NAMES` lookup: first binding of the class id, if any. -/
def lookupCatalog (catalog : Catalog) (c : Nat) : Option String :=
  match catalog with
  | [] => none
  | (k, v) :: rest => if k = c then some v else lookupCatalog rest c

/-- `CLASS_NAMES.get(int(c), f"class_{int(c)}")`. -/
def resolveLabel (catalog : Catalog) (c : Nat) : String :=
  match lookupCatalog catalog c with
  | some l => l
  | none => "class_" ++ toString c

/-- Insert one detection into an already-sorted (descending) suffix.
The inserted element comes from earlier in the raw input than every
element of the suffix, so on an equal confidence it goes first. -/
def insertDesc (x : RawDet) : List RawDet → List RawDet
  | [] => [x]
  | y :: ys => if y.2 ≤ x.2 then x :: y :: ys else y :: insertDesc x ys

/-- `sorted(zip(cls, conf), key=lambda x: x[1], reverse=True)`:
stable sort by confidence, descending. -/
def sortDesc : List RawDet → List RawDet
  | [] => []
  | x :: xs => insertDesc x (sortDesc xs)

/-- `counts.get(label, 0)`. -/
def lookupCount (counts : Counts) (l : String) : Nat :=
  match counts with
  | [] => 0
  | (k, n) :: rest => if k = l then n else lookupCount rest l

/-- `counts[label] = counts.get(label, 0) + 1` on a Python dict:
in-place update when present, appended in first-seen order when absent. -/
def bumpCount (counts : Counts) (l : String) : Counts :=
  match counts with
  | [] => [(l, 1)]
  | (k, n) :: rest => if k = l then (k, n + 1) :: rest else (k, n) :: bumpCount rest l

/-- `sum(counts.values())`. -/
def sumCounts (counts : Counts) : Nat :=
  (counts.map Prod.snd).sum

/-- The object appended for one sorted entry:
`{"label": label, "confidence": float(cf)}`. -/
def mkObj (catalog : Catalog) (d : RawDet) : DetObj :=
  { label := resolveLabel catalog d.1, confidence := d.2 }

/-- One iteration of the loop body
`objects.append(...); counts[label] = counts.get(label, 0) + 1`. -/
def postStep (catalog : Catalog) (acc : List DetObj × Counts) (d : RawDet) :
    List DetObj × Counts :=
  (acc.1 ++ [mkObj catalog d], bumpCount acc.2 (resolveLabel catalog d.1))

/-- Result post-processing, lines 348-359 of `detect()`: start from empty
`objects`/`counts`, and when the raw detections are non-empty, loop over
them sorted by confidence descending. -/
def pySummarize (raw : List RawDet) (catalog : Catalog) : DetectionResult :=
  if raw.length > 0 then
    let acc := (sortDesc raw).foldl (postStep catalog) ([], [])
    { objects := acc.1, counts := acc.2 }
  else
    { objects := [], counts := [] }

/-- The `/api/detect` handler.  Checks in source order: `model is None`
(500), `"image" not in request.files` (400), `not f.filename` (400); then
the temp file is created, the model is invoked on it, and on success the
loop builds the payload and the temp file is unlinked.  The source's
`try:` block has no `except`/`finally`, so a raising model call exits the
handler with the exception unhandled and the unlink skipped. -/
def detect (modelLoaded hasImageField : Bool) (filename : String)
    (payload : List Nat) (infer : Except String (List RawDet))
    (catalog : Catalog) : DetectOutcome :=
  if !modelLoaded then
    DetectOutcome.response 500 (Body.err "Model not loaded") false
  else if !hasImageField then
    DetectOutcome.response 400 (Body.err "No file field \x27image\x27") false
  else if filename = "" then
    DetectOutcome.response 400 (Body.err "Empty filename") false
  else
    match infer with
    | Except.error e => DetectOutcome.unhandled e true
    | Except.ok raw =>
        DetectOutcome.response 200 (Body.payload (pySummarize raw catalog)) false

/-- C5: a request that passes validation and whose inference yields an empty
`RawDetections` gets status 200 with `objects = []` and `counts = {}`;
the handler treats this as success, and the temp file is removed. -/
theorem detect_empty_raw_success (filename : String) (payload : List Nat)
    (catalog : Catalog) (h : filename ≠ "") :
    detect true true filename payload (Except.ok []) catalog
      = DetectOutcome.response 200 (Body.payload ⟨[], []⟩) false := by
  simp [detect, pySummarize, h]

/-- Witness for C5 at a concrete request. -/
theorem detect_empty_raw_success_witness :
    ("scene.jpg" ≠ "")
    ∧ detect true true "scene.jpg" [255, 216] (Except.ok []) []
        = DetectOutcome.response 200 (Body.payload ⟨[], []⟩) false :=
  ⟨by decide, detect_empty_raw_success "scene.jpg" [255, 216] [] (by decide)⟩

/-! ### Properties of the stable descending sort -/

theorem mem_insertDesc {a x : RawDet} {l : List RawDet} :
    a ∈ insertDesc x l ↔ a = x ∨ a ∈ l := by
  induction l with
  | nil => simp [insertDesc]
  | cons y ys ih =>
      by_cases h : y.2 ≤ x.2
      · simp [insertDesc, h]
      · simp [insertDesc, h, ih]
        tauto

theorem pairwise_insertDesc (x : RawDet) (l : List RawDet)
    (hl : List.Pairwise (fun a b : RawDet => b.2 ≤ a.2) l) :
    List.Pairwise (fun a b : RawDet => b.2 ≤ a.2) (insertDesc x l) := by
  induction l with
  | nil => simp [insertDesc]
  | cons y ys ih =>
      rcases List.pairwise_cons.mp hl with ⟨hy, hys⟩
      by_cases h : y.2 ≤ x.2
      · rw [insertDesc, if_pos h]
        refine List.pairwise_cons.mpr ⟨?_, hl⟩
        intro z hz
        rcases List.mem_cons.mp hz with hz | hz
        · exact hz ▸ h
        · exact le_trans (hy z hz) h
      · rw [insertDesc, if_neg h]
        refine List.pairwise_cons.mpr ⟨?_, ih hys⟩
        intro z hz
        rcases mem_insertDesc.mp hz with hz | hz
        · exact hz ▸ le_of_lt (lt_of_not_le h)
        · exact hy z hz

theorem pairwise_sortDesc (l : List RawDet) :
    List.Pairwise (fun a b : RawDet => b.2 ≤ a.2) (sortDesc l) := by
  induction l with
  | nil => simp [sortDesc]
  | cons x xs ih => exact pairwise_insertDesc x (sortDesc xs) ih

theorem filter_insertDesc (c : ℚ) (x : RawDet) (l : List RawDet) :
    (insertDesc x l).filter (fun d => d.2 = c)
      = if x.2 = c then x :: l.filter (fun d => d.2 = c)
        else l.filter (fun d => d.2 = c) := by
  induction l with
  | nil => by_cases hx : x.2 = c <;> simp [insertDesc, hx]
  | cons y ys ih =>
      by_cases h : y.2 ≤ x.2
      · rw [insertDesc, if_pos h]
        by_cases hx : x.2 = c <;> simp [List.filter_cons, hx]
      · rw [insertDesc, if_neg h]
        by_cases hx : x.2 = c
        · have hy : ¬ y.2 = c := fun hy =>
            h (le_of_eq (hy.trans hx.symm))
          simp [List.filter_cons, hy, ih, hx]
        · by_cases hy : y.2 = c <;> simp [List.filter_cons, hy, ih, hx]

theorem filter_sortDesc (c : ℚ) (l : List RawDet) :
    (sortDesc l).filter (fun d => d.2 = c) = l.filter (fun d => d.2 = c) := by
  induction l with
  | nil => rfl
  | cons x xs ih =>
      by_cases hx : x.2 = c <;>
        simp [sortDesc, filter_insertDesc, hx, ih]

theorem length_insertDesc (x : RawDet) (l : List RawDet) :
    (insertDesc x l).length = l.length + 1 := by
  induction l with
  | nil => rfl
  | cons y ys ih =>
      by_cases h : y.2 ≤ x.2 <;> simp [insertDesc, h, ih]

theorem length_sortDesc (l : List RawDet) :
    (sortDesc l).length = l.length := by
  induction l with
  | nil => rfl
  | cons x xs ih => simp [sortDesc, length_insertDesc, ih]

/-! ### Properties of the objects/counts loop -/

theorem foldl_postStep_fst (catalog : Catalog) (entries : List RawDet)
    (objs : List DetObj) (cnts : Counts) :
    (entries.foldl (postStep catalog) (objs, cnts)).1
      = objs ++ entries.map (mkObj catalog) := by
  induction entries generalizing objs cnts with
  | nil => simp
  | cons d ds ih => simp [postStep, ih]

theorem sumCounts_bumpCount (cnts : Counts) (l : String) :
    sumCounts (bumpCount cnts l) = sumCounts cnts + 1 := by
  induction cnts with
  | nil => rfl
  | cons kn rest ih =>
      by_cases h : kn.1 = l
      · simp [bumpCount, h, sumCounts]
        omega
      · simp [bumpCount, h, sumCounts] at ih ⊢
        omega

theorem lookupCount_bumpCount (cnts : Counts) (l0 l : String) :
    lookupCount (bumpCount cnts l0) l
      = lookupCount cnts l + (if l0 = l then 1 else 0) := by
  induction cnts with
  | nil =>
      by_cases h : l0 = l <;> simp [bumpCount, lookupCount, h]
  | cons kn rest ih =>
      by_cases hk : kn.1 = l0
      · by_cases hl : kn.1 = l
        · have : l0 = l := hk.symm.trans hl
          simp [bumpCount, lookupCount, hk, hl, this]
        · have : ¬ l0 = l := fun h => hl (hk.trans h)
          simp [bumpCount, lookupCount, hk, hl, this]
      · by_cases hl : kn.1 = l
        · have hne : ¬ l0 = l := fun h => hk (hl.trans h.symm)
          have hne' : ¬ l = l0 := fun h => hne h.symm
          simp [bumpCount, lookupCount, hk, hl, hne, hne']
        · simp [bumpCount, lookupCount, hk, hl, ih]

theorem foldl_postStep_snd_sum (catalog : Catalog) (entries : List RawDet)
    (objs : List DetObj) (cnts : Counts) :
    sumCounts (entries.foldl (postStep catalog) (objs, cnts)).2
      = sumCounts cnts + entries.length := by
  induction entries generalizing objs cnts with
  | nil => simp
  | cons d ds ih =>
      simp [postStep, ih, sumCounts_bumpCount]
      omega

theorem foldl_postStep_snd_lookup (catalog : Catalog) (entries : List RawDet)
    (objs : List DetObj) (cnts : Counts) (l : String) :
    lookupCount (entries.foldl (postStep catalog) (objs, cnts)).2 l
      = lookupCount cnts l
        + (entries.filter (fun d => resolveLabel catalog d.1 = l)).length := by
  induction entries generalizing objs cnts with
  | nil => simp
  | cons d ds ih =>
      by_cases h : resolveLabel catalog d.1 = l
      · simp [postStep, ih, lookupCount_bumpCount, h]
        omega
      · simp [postStep, ih, lookupCount_bumpCount, h]

theorem filterConf_map (catalog : Catalog) (c : ℚ) (l : List RawDet) :
    (l.map (mkObj catalog)).filter (fun o => o.confidence = c)
      = (l.filter (fun d => d.2 = c)).map (mkObj catalog) := by
  induction l with
  | nil => rfl
  | cons d ds ih =>
      by_cases hd : d.2 = c <;> simp [mkObj, hd, ih, List.filter_cons]

theorem filterLabel_map (catalog : Catalog) (L : String) (l : List RawDet) :
    (l.map (mkObj catalog)).filter (fun o => o.label = L)
      = (l.filter (fun d => resolveLabel catalog d.1 = L)).map (mkObj catalog) := by
  induction l with
  | nil => rfl
  | cons d ds ih =>
      by_cases hd : resolveLabel catalog d.1 = L <;>
        simp [mkObj, hd, ih, List.filter_cons]

theorem pySummarize_objects (raw : List RawDet) (catalog : Catalog)
    (h : raw.length > 0) :
    (pySummarize raw catalog).objects = (sortDesc raw).map (mkObj catalog) := by
  simp [pySummarize, h, foldl_postStep_fst]

theorem pySummarize_counts (raw : List RawDet) (catalog : Catalog)
    (h : raw.length > 0) :
    (pySummarize raw catalog).counts
      = ((sortDesc raw).foldl (postStep catalog) ([], [])).2 := by
  simp [pySummarize, h]

/-! ### The claims -/

/-- C1: for every non-empty raw input, the `objects` sequence is sorted by
confidence descending, and the entries at any fixed confidence `c` are
exactly the raw entries of confidence `c`, labelled, in their original
relative order (stability of the sort). -/
theorem summarize_objects_sorted_stable (raw : List RawDet) (catalog : Catalog)
    (c : ℚ) (h : raw ≠ []) :
    List.Pairwise (fun a b : DetObj => b.confidence ≤ a.confidence)
        (pySummarize raw catalog).objects
    ∧ (pySummarize raw catalog).objects.filter (fun o => o.confidence = c)
        = (raw.filter (fun d => d.2 = c)).map (mkObj catalog) := by
  have hlen : raw.length > 0 := List.length_pos.mpr h
  rw [pySummarize_objects raw catalog hlen]
  constructor
  · rw [List.pairwise_map]
    simpa [mkObj] using pairwise_sortDesc raw
  · rw [filterConf_map, filter_sortDesc]

/-- Witness for C1 at the spec's concrete scenario
`[(dog,0.9), (cat,0.8), (dog,0.7)]`. -/
theorem summarize_objects_sorted_stable_witness :
    ([((16 : Nat), (9 : ℚ)/10), (15, 4/5), (16, 7/10)] ≠ ([] : List RawDet))
    ∧ (List.Pairwise (fun a b : DetObj => b.confidence ≤ a.confidence)
          (pySummarize [(16, 9/10), (15, 4/5), (16, 7/10)]
            [(15, "cat"), (16, "dog")]).objects
        ∧ (pySummarize [(16, 9/10), (15, 4/5), (16, 7/10)]
            [(15, "cat"), (16, "dog")]).objects.filter
              (fun o => o.confidence = 9/10)
          = ([(16, 9/10), (15, 4/5), (16, 7/10)].filter
              (fun d : RawDet => d.2 = 9/10)).map
                (mkObj [(15, "cat"), (16, "dog")])) :=
  ⟨by decide,
   summarize_objects_sorted_stable [(16, 9/10), (15, 4/5), (16, 7/10)]
     [(15, "cat"), (16, "dog")] (9/10) (by decide)⟩

/-- C4: the values of `counts` always sum to the length of `objects`. -/
theorem counts_sum_eq_objects_length (raw : List RawDet) (catalog : Catalog) :
    sumCounts (pySummarize raw catalog).counts
      = (pySummarize raw catalog).objects.length := by
  by_cases hlen : raw.length > 0
  · rw [pySummarize_counts raw catalog hlen, pySummarize_objects raw catalog hlen,
        foldl_postStep_snd_sum]
    simp [sumCounts]
  · simp [pySummarize, hlen, sumCounts]

/-- C10: `counts` is exactly the label histogram of `objects`: for every
label `L`, the count stored for `L` (0 when absent) equals the number of
entries of `objects` whose label is `L`. -/
theorem counts_histogram (raw : List RawDet) (catalog : Catalog) (L : String) :
    lookupCount (pySummarize raw catalog).counts L
      = ((pySummarize raw catalog).objects.filter (fun o => o.label = L)).length := by
  by_cases hlen : raw.length > 0
  · rw [pySummarize_objects raw catalog hlen, filterLabel_map,
        pySummarize_counts raw catalog hlen, foldl_postStep_snd_lookup]
    simp [lookupCount]
  · simp [pySummarize, hlen, lookupCount]

/-- C8: an unmapped class id resolves to the deterministic fallback label
`"class_<id>"`; label resolution is a total function. -/
theorem resolveLabel_unmapped_fallback (catalog : Catalog) (c : Nat)
    (h : lookupCatalog catalog c = none) :
    resolveLabel catalog c = "class_" ++ toString c := by
  simp [resolveLabel, h]

/-- Witness for C8: class id 99 is absent from a one-entry catalog. -/
theorem resolveLabel_unmapped_fallback_witness :
    lookupCatalog [(0, "person")] 99 = none
    ∧ resolveLabel [(0, "person")] 99 = "class_" ++ toString 99 :=
  ⟨rfl, resolveLabel_unmapped_fallback [(0, "person")] 99 rfl⟩

/-- C2 (code bug): when the inference call raises, the handler exits with
the exception unhandled and the temporary file still on disk
(`tempLeft = true`): `os.unlink` sits on the success path only and the
file was created with `delete=False`, so no exit-path guarantee holds. -/
theorem detect_error_leaves_tempfile :
    detect true true "photo.jpg" [137, 80, 78, 71]
        (Except.error "inference failed") []
      = DetectOutcome.unhandled "inference failed" true := rfl

/-- C3 (code bug): an exception from the inference call is not caught and
mapped to a 500 `InferenceError` response; the `try:` block has no
`except` clause, so the exception propagates out of the handler. -/
theorem detect_error_unhandled_concrete :
    (detect true true "img.png" [1, 2] (Except.error "boom") []
        = DetectOutcome.unhandled "boom" true)
    ∧ ∀ (b : Body) (t : Bool),
        detect true true "img.png" [1, 2] (Except.error "boom") []
          ≠ DetectOutcome.response 500 b t := by
  refine ⟨rfl, ?_⟩
  intro b t hctr
  simp [detect] at hctr

/-- C6 counterexample: an upload whose bytes the model cannot decode makes
the inference call raise, and the request does not produce a 400
response — the exception leaves the handler unhandled. -/
theorem detect_malformed_not_400 :
    (detect true true "junk.bin" [0, 1, 2, 3]
        (Except.error "cannot identify image file") []
      = DetectOutcome.unhandled "cannot identify image file" true)
    ∧ ∀ (b : Body) (t : Bool),
        detect true true "junk.bin" [0, 1, 2, 3]
            (Except.error "cannot identify image file") []
          ≠ DetectOutcome.response 400 b t := by
  refine ⟨rfl, ?_⟩
  intro b t hctr
  simp [detect] at hctr

/-- C6 amended: undecodable bytes are never rejected by a validation step;
for any request that passes the field and filename checks, a raising
inference call exits the handler unhandled (with the temp file left on
disk), rather than returning status 400. -/
theorem detect_malformed_unhandled (filename : String) (payload : List Nat)
    (msg : String) (catalog : Catalog) (h : filename ≠ "") :
    detect true true filename payload (Except.error msg) catalog
      = DetectOutcome.unhandled msg true := by
  simp [detect, h]

/-- Witness for the amended C6. -/
theorem detect_malformed_unhandled_witness :
    ("noise.dat" ≠ "")
    ∧ detect true true "noise.dat" [9, 9]
        (Except.error "cannot identify image file") []
      = DetectOutcome.unhandled "cannot identify image file" true :=
  ⟨by decide,
   detect_malformed_unhandled "noise.dat" [9, 9]
     "cannot identify image file" [] (by decide)⟩

/-- C7 counterexample: a present file with a non-empty filename and a
zero-byte payload is not rejected with 400 — the handler never inspects
the payload size, so the request reaches inference (where the empty file
makes the model raise, leaving the handler unhandled). -/
theorem detect_zero_byte_payload_not_400 :
    (detect true true "empty.jpg" [] (Except.error "empty file") []
        = DetectOutcome.unhandled "empty file" true)
    ∧ ∀ (b : Body) (t : Bool),
        detect true true "empty.jpg" [] (Except.error "empty file") []
          ≠ DetectOutcome.response 400 b t := by
  refine ⟨rfl, ?_⟩
  intro b t hctr
  simp [detect] at hctr

/-- C7 amended: the distinct 400 branch triggers on an empty *filename*
(`"Empty filename"`, distinct from the missing-field message), not on a
zero-byte payload. -/
theorem detect_empty_filename_400 (payload : List Nat)
    (infer : Except String (List RawDet)) (catalog : Catalog) :
    (detect true true "" payload infer catalog
        = DetectOutcome.response 400 (Body.err "Empty filename") false)
    ∧ "Empty filename" ≠ "No file field \x27image\x27" := by
  constructor
  · simp [detect]
  · decide
